import Mathlib

/-!
Shallow embedding of the redditFetcher program (src/main.go).

The embedding covers the data model (RedditPost, Stats, StatsManager), the
stats aggregator (UpdateStats), the token exchange (FetchAccessToken), the
listing fetch (FetchRedditData) and the scheduler loop in main.

Modelling conventions:
* A JSON body is an inductive Json value; a body that is not valid JSON is
  modelled as Option.none.  Decoding into a Go map of unique keys is
  modelled as an association list looked up by first match.
* Go machine integers are modelled as Int (no arithmetic in this program
  approaches 2^63), JSON numbers as rationals (Go decodes every JSON number
  to float64; the program only converts them to int, which truncates toward
  zero), and time.Time as unix seconds, with Go's zero time at its actual
  unix value.
* A Go runtime panic from an unchecked type assertion is a distinguished
  outcome constructor, separate from a normal error return.
* The non-reentrant sync.Mutex is modelled by the ordered list of Lock and
  Unlock operations a call performs; a Lock issued while the mutex is held
  by the same call is a self-deadlock.
-/

/-- JSON values, as Go decodes them into a generic interface value. -/
inductive Json where
  | null
  | bool (b : Bool)
  | num (q : ℚ)
  | str (s : String)
  | arr (elems : List Json)
  | obj (fields : List (String × Json))

/-- Lookup of a key in a decoded JSON object (Go map read). -/
def lookupField : List (String × Json) → String → Option Json
  | [], _ => none
  | (k, v) :: rest, key => if k = key then some v else lookupField rest key

/-- Go's int(f) conversion on a float64: truncation toward zero.  On a
rational in lowest terms this is T-division of the numerator by the
denominator. -/
def truncRat (q : ℚ) : Int :=
  Int.tdiv q.num (Int.ofNat q.den)

/-- RedditPost from src/main.go lines 16-20. -/
structure RedditPost where
  title : String
  author : String
  upvotes : Int
deriving DecidableEq

/-- Stats from src/main.go lines 23-26.  The Go map TopUsers is modelled as
an association list with unique keys. -/
structure Stats where
  topUsers : List (String × Nat)
  mostUpvotedPost : RedditPost
deriving DecidableEq

/-- StatsManager from src/main.go lines 29-34 (without the mutex, which is
modelled separately by event traces).  resetTime is unix seconds. -/
structure StatsManager where
  stats : Stats
  remainingRequests : Int
  resetTime : Int
deriving DecidableEq

/-- Unix seconds of Go's zero time.Time (January 1, year 1 UTC). -/
def goZeroTimeUnix : Int := -62135596800

/-- The zero value of RedditPost: Go's zero value for the struct. -/
def emptyRedditPost : RedditPost := { title := "", author := "", upvotes := 0 }

/-- NewStatsManager from src/main.go lines 73-79: only stats.TopUsers is
set; remainingRequests and resetTime keep their Go zero values. -/
def NewStatsManager : StatsManager :=
  { stats := { topUsers := [], mostUpvotedPost := emptyRedditPost }
  , remainingRequests := 0
  , resetTime := goZeroTimeUnix }

/-- Go map increment m[k]++: a missing key is read as 0, so the first
increment inserts the key with value 1. -/
def mapIncr : List (String × Nat) → String → List (String × Nat)
  | [], key => [(key, 1)]
  | (k, n) :: rest, key =>
    if k = key then (k, n + 1) :: rest else (k, n) :: mapIncr rest key

/-- Go map read with presence: mapGet m k = some n when k is present. -/
def mapGet : List (String × Nat) → String → Option Nat
  | [], _ => none
  | (k, n) :: rest, key => if k = key then some n else mapGet rest key

/-- The body of the loop in UpdateStats (src/main.go lines 86-92): increment
the author's counter, then replace the top post when the new post's upvotes
strictly exceed the current top post's upvotes. -/
def updatePost (s : Stats) (post : RedditPost) : Stats :=
  let s1 : Stats := { s with topUsers := mapIncr s.topUsers post.author }
  if post.upvotes > s1.mostUpvotedPost.upvotes then
    { s1 with mostUpvotedPost := post }
  else
    s1

/-- UpdateStats from src/main.go lines 82-93, as a pure function on Stats. -/
def UpdateStats (s : Stats) (posts : List RedditPost) : Stats :=
  posts.foldl updatePost s

/-- The aggregate state after a sequence of UpdateStats calls on a fresh
StatsManager. -/
def applyUpdates (calls : List (List RedditPost)) : Stats :=
  calls.foldl UpdateStats NewStatsManager.stats

/-- One iteration of the fetch branch decision in main's loop (src/main.go
lines 222-240): a fetch is launched (and may change the manager state) only
when remainingRequests is positive; otherwise the state is untouched. -/
def schedulerStep (fetch : StatsManager → StatsManager) (sm : StatsManager) : StatsManager :=
  if 0 < sm.remainingRequests then fetch sm else sm

/-- The manager state at the start of iteration n of main's loop, for an
arbitrary fetch effect. -/
def schedulerRun (fetch : StatsManager → StatsManager) : Nat → StatsManager
  | 0 => NewStatsManager
  | n + 1 => schedulerStep fetch (schedulerRun fetch n)

/-- Whether an iteration launches a fetch: the guard at src/main.go line 224. -/
def iterationFetches (sm : StatsManager) : Bool :=
  decide (0 < sm.remainingRequests)

/-- Seconds slept by the reset-wait branch of one iteration at time now
(src/main.go lines 229-236): zero when a fetch is launched, and otherwise
the countdown to resetTime, slept only when positive. -/
def resetWaitSleep (sm : StatsManager) (now : Int) : Int :=
  if 0 < sm.remainingRequests then 0
  else if 0 < sm.resetTime - now then sm.resetTime - now else 0

/-- An HTTP exchange outcome as the program observes it: a transport error,
or a response with status, headers and a body (none when the body is not
valid JSON). -/
inductive HttpOutcome where
  | netError (msg : String)
  | response (status : Nat) (headers : List (String × String)) (body : Option Json)

/-- Outcome of FetchAccessToken: a token, an error return, or a runtime
panic from the unchecked type assertion. -/
inductive TokenResult where
  | ok (token : String)
  | err (msg : String)
  | panicked
deriving DecidableEq

/-- The unchecked assertion tokenResponse access_token .(string): some
token when the field is present and a string, none (panic) otherwise. -/
def tokenField (fields : List (String × Json)) : Option String :=
  match lookupField fields "access_token" with
  | some (Json.str s) => some s
  | _ => none

/-- FetchAccessToken from src/main.go lines 38-68, as a function of the
token endpoint's response.  A non-object JSON body fails Go's decode into a
map (error return); a null body decodes into a nil map, after which the
type assertion on the missing field panics. -/
def FetchAccessToken (resp : HttpOutcome) : TokenResult :=
  match resp with
  | HttpOutcome.netError msg => TokenResult.err msg
  | HttpOutcome.response status _ body =>
    if status ≠ 200 then TokenResult.err "failed to get access token"
    else
      match body with
      | none => TokenResult.err "decode error"
      | some (Json.obj fields) =>
        match tokenField fields with
        | some t => TokenResult.ok t
        | none => TokenResult.panicked
      | some Json.null => TokenResult.panicked
      | some _ => TokenResult.err "decode error"

/-- Whether a TokenResult is an error return. -/
def isErrResult : TokenResult → Bool
  | TokenResult.err _ => true
  | _ => false

/-- Header lookup (net/http canonicalized names are matched exactly). -/
def getHeader : List (String × String) → String → Option String
  | [], _ => none
  | (k, v) :: rest, key => if k = key then some v else getHeader rest key

/-- Header lookup as the program uses it: Header.Get returns the empty
string for a missing header, and the code treats an empty value as absent
(src/main.go lines 152 and 159). -/
def getHeaderNE (headers : List (String × String)) (key : String) : Option String :=
  match getHeader headers key with
  | some v => if v = "" then none else some v
  | none => none

/-- Decimal digit run to a number; none on an empty run or non-digit. -/
def parseDigits : List Char → Option Nat
  | [] => none
  | cs =>
    cs.foldl
      (fun acc c =>
        match acc with
        | none => none
        | some n => if c.isDigit then some (n * 10 + (c.toNat - 48)) else none)
      (some 0)

/-- Signed decimal integer of a whole string.  Models both Sscanf with a
decimal verb and strconv.ParseInt on the header values the claims concern
(well-formed decimal strings). -/
def parseDecInt (s : String) : Option Int :=
  match s.data with
  | '-' :: rest => (parseDigits rest).map (fun n => -(n : Int))
  | l => (parseDigits l).map (fun n => (n : Int))

/-- Result of decoding and walking one listing body (src/main.go lines
165-179): the posts, a decode error (early return), or a runtime panic from
an unchecked type assertion while walking the nested structure. -/
inductive WalkResult where
  | posts (ps : List RedditPost)
  | decodeError
  | panicked
deriving DecidableEq

/-- One child of the children array (src/main.go lines 172-178): its data
field must be an object whose title and author are strings and whose score
is a number (every JSON number decodes to float64, then int truncates);
anything else panics (none). -/
def parseChild (child : Json) : Option RedditPost :=
  match child with
  | Json.obj cf =>
    match lookupField cf "data" with
    | some (Json.obj pd) =>
      match lookupField pd "title", lookupField pd "author", lookupField pd "score" with
      | some (Json.str t), some (Json.str a), some (Json.num q) =>
        some { title := t, author := a, upvotes := truncRat q }
      | _, _, _ => none
    | _ => none
  | _ => none

/-- The loop over children, in order; the first ill-shaped child panics. -/
def parseChildren : List Json → Option (List RedditPost)
  | [] => some []
  | c :: rest =>
    match parseChild c, parseChildren rest with
    | some p, some ps => some (p :: ps)
    | _, _ => none

/-- Decode and walk a listing body (src/main.go lines 165-179).  A body
that is not valid JSON, or is valid JSON that cannot decode into a map, is
a decode error (logged early return); a null body decodes into a nil map
and the walk then panics; an object without the expected data object and
children array, or with an ill-shaped child, panics. -/
def parseListing (body : Option Json) : WalkResult :=
  match body with
  | none => WalkResult.decodeError
  | some (Json.obj fields) =>
    match lookupField fields "data" with
    | some (Json.obj dataFields) =>
      match lookupField dataFields "children" with
      | some (Json.arr children) =>
        match parseChildren children with
        | some ps => WalkResult.posts ps
        | none => WalkResult.panicked
      | _ => WalkResult.panicked
    | _ => WalkResult.panicked
  | some Json.null => WalkResult.panicked
  | some _ => WalkResult.decodeError

/-- The remaining-header write of src/main.go lines 152-157: a nonempty
header value is scanned with a decimal verb into remainingRequests, which is
left unchanged when the scan fails. -/
def applyRemainingHeader (headers : List (String × String)) (sm : StatsManager) : StatsManager :=
  match getHeaderNE headers "X-RateLimit-Remaining" with
  | some v =>
    match parseDecInt v with
    | some n => { sm with remainingRequests := n }
    | none => sm
  | none => sm

/-- The reset-header write of src/main.go lines 159-163: a nonempty header
value is parsed with ParseInt, whose error is discarded, so a failed parse
stores unix 0 into resetTime. -/
def applyResetHeader (headers : List (String × String)) (sm : StatsManager) : StatsManager :=
  match getHeaderNE headers "X-RateLimit-Reset" with
  | some v => { sm with resetTime := (parseDecInt v).getD 0 }
  | none => sm

/-- The rate-limit header writes of src/main.go lines 152-163, in program
order: remaining first, then reset. -/
def applyRateHeaders (headers : List (String × String)) (sm : StatsManager) : StatsManager :=
  applyResetHeader headers (applyRemainingHeader headers sm)

/-- Outcome of one FetchRedditData call: a normal return with the resulting
manager state, a runtime panic, or a self-deadlock (blocked forever inside
UpdateStats), each carrying the state at that point. -/
inductive FetchOutcome where
  | ok (sm : StatsManager)
  | panicked (sm : StatsManager)
  | deadlocked (sm : StatsManager)
deriving DecidableEq

/-- FetchRedditData from src/main.go lines 129-185 as a function of the
response and the manager state.  A transport error or a 429 returns before
touching any state.  Otherwise the rate headers are applied; a nonempty
remaining header acquires the mutex with the unlock deferred to return, so
when the body parses, the UpdateStats call at line 184 locks the same
non-reentrant mutex again and the call deadlocks. -/
def FetchRedditData (resp : HttpOutcome) (sm : StatsManager) : FetchOutcome :=
  match resp with
  | HttpOutcome.netError _ => FetchOutcome.ok sm
  | HttpOutcome.response status headers body =>
    if status = 429 then FetchOutcome.ok sm
    else
      let locked := (getHeaderNE headers "X-RateLimit-Remaining").isSome
      let sm1 := applyRateHeaders headers sm
      match parseListing body with
      | WalkResult.decodeError => FetchOutcome.ok sm1
      | WalkResult.panicked => FetchOutcome.panicked sm1
      | WalkResult.posts ps =>
        if locked then FetchOutcome.deadlocked sm1
        else FetchOutcome.ok { sm1 with stats := UpdateStats sm1.stats ps }

/-- Operations on the manager's sync.Mutex. -/
inductive MuEvent where
  | lock
  | unlock
deriving DecidableEq

/-- The mutex operations one FetchRedditData call attempts, in program
order: the Lock at line 153 when the remaining header is nonempty (its
deferred Unlock runs at return or during panic unwinding), and the
Lock/Unlock pair inside the UpdateStats call at line 184 when the body
parses. -/
def fetchMuTrace (resp : HttpOutcome) : List MuEvent :=
  match resp with
  | HttpOutcome.netError _ => []
  | HttpOutcome.response status headers body =>
    if status = 429 then []
    else
      let locked := (getHeaderNE headers "X-RateLimit-Remaining").isSome
      let headerEvs := if locked then [MuEvent.lock] else []
      let updateEvs :=
        match parseListing body with
        | WalkResult.posts _ => [MuEvent.lock, MuEvent.unlock]
        | _ => []
      let deferredEvs := if locked then [MuEvent.unlock] else []
      headerEvs ++ updateEvs ++ deferredEvs

/-- Running a trace against a non-reentrant mutex from a held state: true
when a Lock is attempted while the same call already holds the mutex. -/
def selfDeadlock : Bool → List MuEvent → Bool
  | _, [] => false
  | held, MuEvent.lock :: rest => if held then true else selfDeadlock true rest
  | _, MuEvent.unlock :: rest => selfDeadlock false rest

/-- A listing child with the shape of src/main.go lines 172-178. -/
def childJson (t a : String) (q : ℚ) : Json :=
  Json.obj [("data", Json.obj [("title", Json.str t), ("author", Json.str a), ("score", Json.num q)])]

/-- A listing body with the shape data.children as in src/main.go line 172. -/
def listingJson (children : List Json) : Json :=
  Json.obj [("data", Json.obj [("children", Json.arr children)])]

/-- A well-formed 200 listing response carrying a nonempty remaining
header: the input on which a successful fetch self-deadlocks. -/
def rateLimitedFetchInput : HttpOutcome :=
  HttpOutcome.response 200 [("X-RateLimit-Remaining", "99")]
    (some (listingJson [childJson "t" "alice" 5]))

/-! Derived characterizations of the aggregator, used to state the claims. -/

/-- The top-post component of one updatePost step. -/
def topStep (cur post : RedditPost) : RedditPost :=
  if post.upvotes > cur.upvotes then post else cur

/-- Maximum of 0 and the upvote counts of a list of posts. -/
def maxUpvotes (ps : List RedditPost) : Int :=
  ps.foldl (fun m p => max m p.upvotes) 0

/-- Number of posts in a list attributed to author A. -/
def countAuthor (ps : List RedditPost) (A : String) : Nat :=
  ps.countP (fun p => decide (p.author = A))

/-- The count the Go map read observes for author A (missing key reads 0). -/
def authorCount (s : Stats) (A : String) : Nat :=
  (mapGet s.topUsers A).getD 0

/-- Adding k occurrences to an optional count, inserting on first use. -/
def addCount (o : Option Nat) (k : Nat) : Option Nat :=
  match o with
  | some n => some (n + k)
  | none => if k = 0 then none else some k

theorem updatePost_top (s : Stats) (p : RedditPost) :
    (updatePost s p).mostUpvotedPost = topStep s.mostUpvotedPost p := by
  unfold updatePost topStep
  by_cases h : p.upvotes > s.mostUpvotedPost.upvotes <;> simp [h]

theorem updatePost_users (s : Stats) (p : RedditPost) :
    (updatePost s p).topUsers = mapIncr s.topUsers p.author := by
  unfold updatePost
  by_cases h : p.upvotes > s.mostUpvotedPost.upvotes <;> simp [h]

theorem foldl_updatePost_top (ps : List RedditPost) (s : Stats) :
    (ps.foldl updatePost s).mostUpvotedPost = ps.foldl topStep s.mostUpvotedPost := by
  induction ps generalizing s with
  | nil => rfl
  | cons p rest ih => simp [List.foldl_cons, ih, updatePost_top]

theorem foldl_updatePost_users (ps : List RedditPost) (s : Stats) :
    (ps.foldl updatePost s).topUsers
      = ps.foldl (fun m p => mapIncr m p.author) s.topUsers := by
  induction ps generalizing s with
  | nil => rfl
  | cons p rest ih => simp [List.foldl_cons, ih, updatePost_users]

theorem foldl_UpdateStats_flatten (calls : List (List RedditPost)) (s : Stats) :
    calls.foldl UpdateStats s = (calls.flatten).foldl updatePost s := by
  induction calls generalizing s with
  | nil => rfl
  | cons c rest ih => simp [List.flatten_cons, List.foldl_append, ih, UpdateStats]

theorem topStep_upvotes (cur p : RedditPost) :
    (topStep cur p).upvotes = max cur.upvotes p.upvotes := by
  unfold topStep
  by_cases h : p.upvotes > cur.upvotes <;> simp [h] <;> omega

theorem foldl_topStep_upvotes (ps : List RedditPost) (cur : RedditPost) :
    (ps.foldl topStep cur).upvotes
      = ps.foldl (fun m p => max m p.upvotes) cur.upvotes := by
  induction ps generalizing cur with
  | nil => rfl
  | cons p rest ih => simp [List.foldl_cons, ih, topStep_upvotes]

theorem foldlMax_init_le (ps : List RedditPost) (a : Int) :
    a ≤ ps.foldl (fun m p => max m p.upvotes) a := by
  induction ps generalizing a with
  | nil => simp
  | cons p rest ih => exact le_trans (le_max_left a p.upvotes) (ih (max a p.upvotes))

theorem mem_le_foldlMax (ps : List RedditPost) :
    ∀ (a : Int), ∀ q ∈ ps, q.upvotes ≤ ps.foldl (fun m p => max m p.upvotes) a := by
  induction ps with
  | nil => intro a q hq; cases hq
  | cons p rest ih =>
    intro a q hq
    rcases List.mem_cons.mp hq with h | h
    · subst h
      exact le_trans (le_max_right a q.upvotes) (foldlMax_init_le rest (max a q.upvotes))
    · exact ih (max a p.upvotes) q h

theorem foldlMax_of_le (ps : List RedditPost) :
    ∀ (a : Int), (∀ q ∈ ps, q.upvotes ≤ a) →
      ps.foldl (fun m p => max m p.upvotes) a = a := by
  induction ps with
  | nil => intro a _; rfl
  | cons p rest ih =>
    intro a h
    have hp : p.upvotes ≤ a := h p (List.mem_cons_self p rest)
    have hmax : max a p.upvotes = a := max_eq_left hp
    simp only [List.foldl_cons, hmax]
    exact ih a (fun q hq => h q (List.mem_cons_of_mem p hq))

theorem foldl_topStep_spec (ps : List RedditPost) : ∀ cur : RedditPost,
    (ps.foldl topStep cur = cur ∧ ∀ q ∈ ps, q.upvotes ≤ cur.upvotes)
    ∨ (∃ l₁ l₂, ps = l₁ ++ ps.foldl topStep cur :: l₂
        ∧ cur.upvotes < (ps.foldl topStep cur).upvotes
        ∧ (∀ q ∈ l₁, q.upvotes < (ps.foldl topStep cur).upvotes)
        ∧ (∀ q ∈ l₂, q.upvotes ≤ (ps.foldl topStep cur).upvotes)) := by
  induction ps with
  | nil =>
    intro cur
    left
    exact ⟨rfl, by intro q hq; cases hq⟩
  | cons p rest ih =>
    intro cur
    by_cases h : p.upvotes > cur.upvotes
    · have hstep : topStep cur p = p := by unfold topStep; exact if_pos h
      have hfold : (p :: rest).foldl topStep cur = rest.foldl topStep p := by
        simp [List.foldl_cons, hstep]
      rcases ih p with ⟨heq, hall⟩ | ⟨l₁, l₂, hsplit, hlt, hl₁, hl₂⟩
      · right
        refine ⟨[], rest, ?_, ?_, ?_, ?_⟩
        · simp [hfold, heq]
        · rw [hfold, heq]; exact h
        · intro q hq; cases hq
        · intro q hq; rw [hfold, heq]; exact hall q hq
      · right
        refine ⟨p :: l₁, l₂, ?_, ?_, ?_, ?_⟩
        · rw [hfold]
          nth_rewrite 1 [hsplit]
          rfl
        · rw [hfold]; exact lt_trans h hlt
        · intro q hq
          rcases List.mem_cons.mp hq with hq1 | hq1
          · subst hq1; rw [hfold]; exact hlt
          · rw [hfold]; exact hl₁ q hq1
        · intro q hq; rw [hfold]; exact hl₂ q hq
    · have hstep : topStep cur p = cur := by unfold topStep; exact if_neg h
      have hfold : (p :: rest).foldl topStep cur = rest.foldl topStep cur := by
        simp [List.foldl_cons, hstep]
      rcases ih cur with ⟨heq, hall⟩ | ⟨l₁, l₂, hsplit, hlt, hl₁, hl₂⟩
      · left
        constructor
        · rw [hfold]; exact heq
        · intro q hq
          rcases List.mem_cons.mp hq with hq1 | hq1
          · subst hq1; exact le_of_not_lt h
          · exact hall q hq1
      · right
        refine ⟨p :: l₁, l₂, ?_, ?_, ?_, ?_⟩
        · rw [hfold]
          nth_rewrite 1 [hsplit]
          rfl
        · rw [hfold]; exact hlt
        · intro q hq
          rcases List.mem_cons.mp hq with hq1 | hq1
          · subst hq1
            rw [hfold]
            exact lt_of_le_of_lt (le_of_not_lt h) hlt
          · rw [hfold]; exact hl₁ q hq1
        · intro q hq; rw [hfold]; exact hl₂ q hq

theorem mapGet_mapIncr (m : List (String × Nat)) (k A : String) :
    mapGet (mapIncr m k) A
      = if A = k then some ((mapGet m A).getD 0 + 1) else mapGet m A := by
  induction m with
  | nil =>
    by_cases h : A = k
    · subst h
      simp [mapIncr, mapGet]
    · have hs : ¬ k = A := fun hh => h hh.symm
      simp [mapIncr, mapGet, h, hs]
  | cons kv rest ih =>
    obtain ⟨k1, n⟩ := kv
    by_cases h1 : k1 = k
    · subst h1
      by_cases h2 : k1 = A
      · subst h2
        simp [mapIncr, mapGet]
      · have h2s : ¬ A = k1 := fun hh => h2 hh.symm
        simp [mapIncr, mapGet, h2, h2s]
    · by_cases h2 : k1 = A
      · subst h2
        have h1s : ¬ k1 = k := h1
        simp [mapIncr, mapGet, h1, fun hh => h1 hh]
      · have h2s : ¬ A = k1 := fun hh => h2 hh.symm
        simp [mapIncr, mapGet, h1, h2, h2s, ih]

theorem foldl_mapIncr_get (ps : List RedditPost) :
    ∀ (m : List (String × Nat)) (A : String),
      mapGet (ps.foldl (fun acc q => mapIncr acc q.author) m) A
        = addCount (mapGet m A) (countAuthor ps A) := by
  induction ps with
  | nil =>
    intro m A
    cases hm : mapGet m A <;> simp [countAuthor, addCount, hm]
  | cons p rest ih =>
    intro m A
    have hfold : (p :: rest).foldl (fun acc q => mapIncr acc q.author) m
        = rest.foldl (fun acc q => mapIncr acc q.author) (mapIncr m p.author) := rfl
    rw [hfold, ih (mapIncr m p.author) A, mapGet_mapIncr]
    by_cases h : A = p.author
    · have hc : countAuthor (p :: rest) A = countAuthor rest A + 1 := by
        simp [countAuthor, List.countP_cons, h.symm]
      rw [if_pos h, hc]
      cases hm : mapGet m A
      · simp [addCount]
        omega
      · simp [addCount]
        omega
    · have hc : countAuthor (p :: rest) A = countAuthor rest A := by
        have hps : ¬ p.author = A := fun hh => h hh.symm
        simp [countAuthor, List.countP_cons, hps]
      rw [if_neg h, hc]

theorem applyUpdates_topUsers_get (calls : List (List RedditPost)) (A : String) :
    mapGet (applyUpdates calls).topUsers A
      = addCount none (countAuthor calls.flatten A) := by
  unfold applyUpdates
  rw [foldl_UpdateStats_flatten, foldl_updatePost_users]
  exact foldl_mapIncr_get calls.flatten [] A

theorem applyUpdates_top (calls : List (List RedditPost)) :
    (applyUpdates calls).mostUpvotedPost
      = calls.flatten.foldl topStep emptyRedditPost := by
  unfold applyUpdates
  rw [foldl_UpdateStats_flatten, foldl_updatePost_top]
  rfl

theorem applyUpdates_top_upvotes (calls : List (List RedditPost)) :
    (applyUpdates calls).mostUpvotedPost.upvotes = maxUpvotes calls.flatten := by
  rw [applyUpdates_top, foldl_topStep_upvotes]
  rfl

theorem resetWaitSleep_init (now : Int) (hnow : 0 ≤ now) :
    resetWaitSleep NewStatsManager now = 0 := by
  unfold resetWaitSleep
  have h1 : ¬ (0 < NewStatsManager.remainingRequests) := by norm_num [NewStatsManager]
  have h2 : ¬ (0 < NewStatsManager.resetTime - now) := by
    have hr : NewStatsManager.resetTime = -62135596800 := rfl
    omega
  rw [if_neg h1, if_neg h2]

theorem applyRemainingHeader_stats (headers : List (String × String)) (sm : StatsManager) :
    (applyRemainingHeader headers sm).stats = sm.stats := by
  unfold applyRemainingHeader
  cases getHeaderNE headers "X-RateLimit-Remaining" with
  | none => rfl
  | some v =>
    show (match parseDecInt v with
          | some n => { sm with remainingRequests := n }
          | none => sm).stats = sm.stats
    cases parseDecInt v with
    | none => rfl
    | some n => rfl

theorem applyResetHeader_stats (headers : List (String × String)) (sm : StatsManager) :
    (applyResetHeader headers sm).stats = sm.stats := by
  unfold applyResetHeader
  cases getHeaderNE headers "X-RateLimit-Reset" with
  | none => rfl
  | some v => rfl

theorem applyRateHeaders_stats (headers : List (String × String)) (sm : StatsManager) :
    (applyRateHeaders headers sm).stats = sm.stats := by
  unfold applyRateHeaders
  rw [applyResetHeader_stats, applyRemainingHeader_stats]

theorem authorCount_applyUpdates (calls : List (List RedditPost)) (A : String) :
    authorCount (applyUpdates calls) A = countAuthor calls.flatten A := by
  unfold authorCount
  rw [applyUpdates_topUsers_get]
  by_cases h : countAuthor calls.flatten A = 0
  · rw [h]; rfl
  · simp [addCount, h]

/-- C1: from the initial state created by NewStatsManager (remainingRequests
0, resetTime the zero time), the reset-wait branch of the scheduler loop
sleeps zero seconds at any time at or after the unix epoch, yet no iteration
ever launches a fetch, whatever effect a fetch would have: remainingRequests
can only change inside a fetch, so the loop spins forever without fetching,
against the claim that it eventually performs one. -/
theorem scheduler_starves_from_init (fetch : StatsManager → StatsManager) (n : Nat)
    (now : Int) (hnow : 0 ≤ now) :
    schedulerRun fetch n = NewStatsManager
    ∧ iterationFetches (schedulerRun fetch n) = false
    ∧ resetWaitSleep (schedulerRun fetch n) now = 0 := by
  have hrun : schedulerRun fetch n = NewStatsManager := by
    induction n with
    | zero => rfl
    | succ m ih =>
      show schedulerStep fetch (schedulerRun fetch m) = NewStatsManager
      rw [ih]
      simp [schedulerStep, NewStatsManager]
  refine ⟨hrun, ?_, ?_⟩
  · rw [hrun]; decide
  · rw [hrun]; exact resetWaitSleep_init now hnow

/-- Witness for the C1 theorem at fetch = id, n = 3, now = 0. -/
theorem scheduler_starves_from_init_witness :
    schedulerRun id 3 = NewStatsManager
    ∧ iterationFetches (schedulerRun id 3) = false
    ∧ resetWaitSleep (schedulerRun id 3) 0 = 0 :=
  scheduler_starves_from_init id 3 0 (by decide)

/-- C2 counterexample: one update call with a single post of upvote count
-5 leaves the initial zero-valued top post in place, so top_post is not the
post with the maximum upvote count among all passed posts. -/
theorem negative_post_not_top :
    (applyUpdates [[{ title := "a", author := "bob", upvotes := -5 }]]).mostUpvotedPost
        ≠ { title := "a", author := "bob", upvotes := -5 }
    ∧ (applyUpdates
        [[{ title := "a", author := "bob", upvotes := -5 }]]).mostUpvotedPost.upvotes = 0 := by
  decide

/-- C2 amended: after any sequence of update calls, top_post.upvote_count
equals the maximum of 0 and all passed upvote counts; when that maximum is 0
(every passed count nonpositive) the initial zero-valued record remains the
top post; when it is positive, top_post is the first passed post attaining
it (ties keep the first seen, every earlier post being strictly below). -/
theorem top_post_first_max (calls : List (List RedditPost)) :
    (applyUpdates calls).mostUpvotedPost.upvotes = maxUpvotes calls.flatten
    ∧ (∀ q ∈ calls.flatten, q.upvotes ≤ maxUpvotes calls.flatten)
    ∧ (maxUpvotes calls.flatten = 0 →
        (applyUpdates calls).mostUpvotedPost = emptyRedditPost)
    ∧ (0 < maxUpvotes calls.flatten →
        ∃ l₁ l₂, calls.flatten = l₁ ++ (applyUpdates calls).mostUpvotedPost :: l₂
          ∧ ∀ q ∈ l₁, q.upvotes < (applyUpdates calls).mostUpvotedPost.upvotes) := by
  have hup := applyUpdates_top_upvotes calls
  have htop := applyUpdates_top calls
  have hspec := foldl_topStep_spec calls.flatten emptyRedditPost
  have hTup : (calls.flatten.foldl topStep emptyRedditPost).upvotes
      = maxUpvotes calls.flatten := by rw [← htop]; exact hup
  refine ⟨hup, ?_, ?_, ?_⟩
  · intro q hq
    exact mem_le_foldlMax calls.flatten 0 q hq
  · intro hmax
    rcases hspec with ⟨heq, hall⟩ | ⟨l₁, l₂, hsplit, hlt, hl₁, hl₂⟩
    · rw [htop, heq]
    · exfalso
      have hempty : emptyRedditPost.upvotes = 0 := rfl
      omega
  · intro hpos
    rcases hspec with ⟨heq, hall⟩ | ⟨l₁, l₂, hsplit, hlt, hl₁, hl₂⟩
    · exfalso
      have hall0 : ∀ q ∈ calls.flatten, q.upvotes ≤ 0 := by
        intro q hq
        exact hall q hq
      have hzero : maxUpvotes calls.flatten = 0 :=
        foldlMax_of_le calls.flatten 0 hall0
      omega
    · refine ⟨l₁, l₂, ?_, ?_⟩
      · rw [htop]; exact hsplit
      · intro q hq; rw [htop]; exact hl₁ q hq

/-- Witness for the C2 amended theorem at one call with one positive post. -/
theorem top_post_first_max_witness :
    ∃ l₁ l₂,
      ([[{ title := "t", author := "alice", upvotes := 5 }]]
          : List (List RedditPost)).flatten
        = l₁ ++ (applyUpdates
            [[{ title := "t", author := "alice", upvotes := 5 }]]).mostUpvotedPost :: l₂
      ∧ ∀ q ∈ l₁, q.upvotes < (applyUpdates
            [[{ title := "t", author := "alice", upvotes := 5 }]]).mostUpvotedPost.upvotes :=
  (top_post_first_max [[{ title := "t", author := "alice", upvotes := 5 }]]).2.2.2 (by decide)

/-- C5: for every author and every call sequence, the stored per-author
count equals the exact number of posts by that author passed across all
calls, and the author is absent from the map exactly when that number is 0. -/
theorem author_counts_exact (calls : List (List RedditPost)) (A : String) :
    mapGet (applyUpdates calls).topUsers A
      = if countAuthor calls.flatten A = 0 then none
        else some (countAuthor calls.flatten A) := by
  rw [applyUpdates_topUsers_get]
  rfl

/-- C6: after any call sequence the top post's upvote count bounds every
upvote count ever passed, and no author's stored count decreases when one
more update call runs. -/
theorem aggregator_invariants (calls : List (List RedditPost)) (next : List RedditPost) :
    (∀ p ∈ calls.flatten, p.upvotes ≤ (applyUpdates calls).mostUpvotedPost.upvotes)
    ∧ (∀ A, authorCount (applyUpdates calls) A
          ≤ authorCount (applyUpdates (calls ++ [next])) A) := by
  constructor
  · intro p hp
    rw [applyUpdates_top_upvotes]
    exact mem_le_foldlMax calls.flatten 0 p hp
  · intro A
    rw [authorCount_applyUpdates calls A, authorCount_applyUpdates (calls ++ [next]) A]
    have hflat : (calls ++ [next]).flatten = calls.flatten ++ next := by
      simp [List.flatten_append]
    rw [hflat]
    unfold countAuthor
    rw [List.countP_append]
    omega

/-- Witness for the C6 theorem at one call with one post. -/
theorem aggregator_invariants_witness :
    ({ title := "t", author := "a", upvotes := 5 } : RedditPost).upvotes
      ≤ (applyUpdates
          [[{ title := "t", author := "a", upvotes := 5 }]]).mostUpvotedPost.upvotes :=
  (aggregator_invariants [[{ title := "t", author := "a", upvotes := 5 }]] []).1
    { title := "t", author := "a", upvotes := 5 } (by decide)

/-- C10: the stored top post starts as the zero-valued record and never has
a negative upvote count: after any call sequence it is either still the
zero-valued initial record, or one of the passed posts with a strictly
positive upvote count — so a post with upvote count at most 0 never becomes
the stored top post, even when it is the only post ever passed. -/
theorem top_post_nonnegative (calls : List (List RedditPost)) :
    0 ≤ (applyUpdates calls).mostUpvotedPost.upvotes
    ∧ ((applyUpdates calls).mostUpvotedPost = emptyRedditPost
        ∨ ((applyUpdates calls).mostUpvotedPost ∈ calls.flatten
            ∧ 0 < (applyUpdates calls).mostUpvotedPost.upvotes)) := by
  have htop := applyUpdates_top calls
  rcases foldl_topStep_spec calls.flatten emptyRedditPost with
    ⟨heq, hall⟩ | ⟨l₁, l₂, hsplit, hlt, hl₁, hl₂⟩
  · rw [htop, heq]
    exact ⟨le_refl 0, Or.inl rfl⟩
  · have hg : calls.flatten.foldl topStep emptyRedditPost
        ∈ l₁ ++ calls.flatten.foldl topStep emptyRedditPost :: l₂ :=
      List.mem_append_right l₁ (List.mem_cons_self _ _)
    have hmem : calls.flatten.foldl topStep emptyRedditPost ∈ calls.flatten := by
      rw [← hsplit] at hg
      exact hg
    have hpos : 0 < (calls.flatten.foldl topStep emptyRedditPost).upvotes := hlt
    rw [htop]
    exact ⟨le_of_lt hpos, Or.inr ⟨hmem, hpos⟩⟩

/-- C3 counterexample: a 200 response whose valid-JSON body is an object
without an access_token field makes FetchAccessToken panic on the unchecked
type assertion instead of returning an error value. -/
theorem token_missing_field_panics :
    isErrResult (FetchAccessToken (HttpOutcome.response 200 [] (some (Json.obj [])))) = false
    ∧ FetchAccessToken (HttpOutcome.response 200 [] (some (Json.obj [])))
        = TokenResult.panicked :=
  ⟨rfl, rfl⟩

/-- C3 amended: FetchAccessToken returns an error value when the HTTP call
fails, when the status is not 200, and when the body is not valid JSON; on
a 200 JSON-object response it returns the access_token string when that
field is a string, but when the field is missing or not a string it panics
(a crash, not an error return). -/
theorem token_result_cases (msg : String) (status : Nat) (hs : status ≠ 200)
    (headers : List (String × String)) (body : Option Json)
    (fields : List (String × Json)) (t : String) :
    FetchAccessToken (HttpOutcome.netError msg) = TokenResult.err msg
    ∧ FetchAccessToken (HttpOutcome.response status headers body)
        = TokenResult.err "failed to get access token"
    ∧ FetchAccessToken (HttpOutcome.response 200 headers none)
        = TokenResult.err "decode error"
    ∧ (tokenField fields = some t →
        FetchAccessToken (HttpOutcome.response 200 headers (some (Json.obj fields)))
          = TokenResult.ok t)
    ∧ (tokenField fields = none →
        FetchAccessToken (HttpOutcome.response 200 headers (some (Json.obj fields)))
          = TokenResult.panicked) := by
  have hred : FetchAccessToken (HttpOutcome.response 200 headers (some (Json.obj fields)))
      = (match tokenField fields with
         | some tok => TokenResult.ok tok
         | none => TokenResult.panicked) := rfl
  refine ⟨rfl, ?_, rfl, ?_, ?_⟩
  · simp only [FetchAccessToken]
    rw [if_pos hs]
  · intro h
    rw [hred, h]
  · intro h
    rw [hred, h]

/-- Witness for the C3 amended theorem at a concrete 200 response carrying
an access_token string. -/
theorem token_result_cases_witness :
    FetchAccessToken (HttpOutcome.response 200 []
        (some (Json.obj [("access_token", Json.str "tok")]))) = TokenResult.ok "tok" :=
  (token_result_cases "x" 500 (by decide) [] none
      [("access_token", Json.str "tok")] "tok").2.2.2.1 rfl

/-- C4 counterexample: a 200 response whose body is valid JSON but lacks the
expected nested data object makes FetchRedditData panic on an unchecked type
assertion — a process crash, not a logged return with zero posts. -/
theorem missing_data_field_crashes :
    FetchRedditData (HttpOutcome.response 200 [] (some (Json.obj []))) NewStatsManager
      = FetchOutcome.panicked NewStatsManager :=
  rfl

/-- C4 amended: on a 200 response, a JSON-decode failure makes
FetchRedditData return normally with zero posts recorded and the aggregate
stats unchanged (only the rate-limit fields may change, from the headers);
but a decodable body whose nested listing fields are missing or ill-typed
makes the call panic — a process crash — instead of returning. -/
theorem fetch_decode_vs_shape (headers : List (String × String)) (body : Option Json)
    (sm : StatsManager) :
    (applyRateHeaders headers sm).stats = sm.stats
    ∧ (parseListing body = WalkResult.decodeError →
        FetchRedditData (HttpOutcome.response 200 headers body) sm
          = FetchOutcome.ok (applyRateHeaders headers sm))
    ∧ (parseListing body = WalkResult.panicked →
        FetchRedditData (HttpOutcome.response 200 headers body) sm
          = FetchOutcome.panicked (applyRateHeaders headers sm)) := by
  have hred : FetchRedditData (HttpOutcome.response 200 headers body) sm
      = (match parseListing body with
         | WalkResult.decodeError => FetchOutcome.ok (applyRateHeaders headers sm)
         | WalkResult.panicked => FetchOutcome.panicked (applyRateHeaders headers sm)
         | WalkResult.posts ps =>
           if (getHeaderNE headers "X-RateLimit-Remaining").isSome
           then FetchOutcome.deadlocked (applyRateHeaders headers sm)
           else FetchOutcome.ok { applyRateHeaders headers sm with
                  stats := UpdateStats (applyRateHeaders headers sm).stats ps }) := rfl
  refine ⟨applyRateHeaders_stats headers sm, ?_, ?_⟩
  · intro h
    rw [hred, h]
  · intro h
    rw [hred, h]

/-- Witness for the C4 amended theorem at a 200 response with a body that is
not valid JSON. -/
theorem fetch_decode_vs_shape_witness :
    FetchRedditData (HttpOutcome.response 200 [] none) NewStatsManager
      = FetchOutcome.ok (applyRateHeaders [] NewStatsManager) :=
  (fetch_decode_vs_shape [] none NewStatsManager).2.1 rfl

/-- C7: a listing child whose score is the JSON number q yields a post whose
upvote count is q truncated toward zero; in particular the floating-point
42.0 (exactly the rational 42) is recorded as the integer 42, and a
fractional score such as 5/2 or -5/2 truncates toward zero. -/
theorem score_truncated_toward_zero (t a : String) (q : ℚ) :
    parseListing (some (listingJson [childJson t a q]))
      = WalkResult.posts [{ title := t, author := a, upvotes := truncRat q }]
    ∧ truncRat 42 = 42
    ∧ truncRat (5 / 2) = 2
    ∧ truncRat (-(5 / 2)) = -2 := by
  refine ⟨rfl, by decide, ?_, ?_⟩ <;>
    (unfold truncRat; norm_num; decide)

/-- C8: a 429 response makes FetchRedditData return with the manager state —
the aggregate counters, the top post, remainingRequests and resetTime —
exactly as it was before the call. -/
theorem fetch_429_unchanged (headers : List (String × String)) (body : Option Json)
    (sm : StatsManager) :
    FetchRedditData (HttpOutcome.response 429 headers body) sm = FetchOutcome.ok sm :=
  rfl

/-- C9: on a 200 response carrying a nonempty X-RateLimit-Remaining header
and a well-formed listing body, FetchRedditData locks the manager's mutex
with the unlock deferred to return, then calls UpdateStats, which locks the
same non-reentrant mutex again: the mutex trace attempts a Lock while the
call already holds the lock, and the fetch self-deadlocks instead of
completing the update. -/
theorem fetch_self_deadlocks :
    selfDeadlock false (fetchMuTrace rateLimitedFetchInput) = true
    ∧ FetchRedditData rateLimitedFetchInput NewStatsManager
        = FetchOutcome.deadlocked { NewStatsManager with remainingRequests := 99 } :=
  ⟨rfl, rfl⟩
